import Mathlib

/-!
Shallow embedding of the city/recipe HTTP service (`src/index.js`).

The service keeps an in-memory store: `recipesByCity` (a JS object mapping
city id strings to arrays of recipes) and a global counter `nextRecipeId`
starting at 1.  Three Fastify handlers operate on it:

* `GET /cities/:cityId/infos`   — composes upstream city insights, upstream
  weather predictions and the stored recipes into a snapshot;
* `POST /cities/:cityId/recipes` — validates `content` and appends a recipe
  with a freshly allocated id;
* `DELETE /cities/:cityId/recipes/:recipeId` — removes one recipe by id.

Upstream HTTP responses are modelled as explicit inputs to the handlers
(`Option CityData` for the insights call, where `none` stands for a
non-success `!cityRes.ok` response, and a list of `WeatherItem` for the
weather call's JSON payload).  JS objects are modelled as association
lists, JS numbers as `Int`, possibly-absent JSON fields as `Option`.
Each handler returns the HTTP response together with the store after the
request, so frame conditions are statable.
-/

/-- A stored recipe: `{ id: nextRecipeId++, content }`. -/
structure Recipe where
  id : Nat
  content : String
deriving DecidableEq

/-- The in-memory store: the `recipesByCity` object (as an association
list, JS object keys being city-id strings) and the `nextRecipeId`
counter. -/
structure Store where
  recipesByCity : List (String × List Recipe)
  nextRecipeId : Nat
deriving DecidableEq

/-- Initial state of the module: `recipesByCity = {}`, `nextRecipeId = 1`. -/
def initialStore : Store := ⟨[], 1⟩

/-- `recipesByCity[cityId]`: `some` list when the key is present,
`none` when the property is absent (JS `undefined`). -/
def lookupCity (m : List (String × List Recipe)) (cityId : String) :
    Option (List Recipe) :=
  match m with
  | [] => none
  | (k, v) :: rest => if k = cityId then some v else lookupCity rest cityId

/-- `if (!recipesByCity[cityId]) recipesByCity[cityId] = []` followed by
`recipesByCity[cityId].push(r)`: append to the existing array (arrays are
always truthy in JS, even empty ones), or bind the key to a fresh
one-element array. -/
def pushRecipe (m : List (String × List Recipe)) (cityId : String)
    (r : Recipe) : List (String × List Recipe) :=
  match m with
  | [] => [(cityId, [r])]
  | (k, v) :: rest =>
    if k = cityId then (k, v ++ [r]) :: rest
    else (k, v) :: pushRecipe rest cityId r

/-- In-place mutation of the array stored under an existing key
(`recipes.splice(index, 1)` mutates the array `recipesByCity[cityId]`
refers to): rebind the key to the new list.  A no-op if the key is
absent (the delete handler only reaches the splice when it is present). -/
def setCity (m : List (String × List Recipe)) (cityId : String)
    (v : List Recipe) : List (String × List Recipe) :=
  match m with
  | [] => []
  | (k, w) :: rest =>
    if k = cityId then (k, v) :: rest
    else (k, w) :: setCity rest cityId v

/-- One coordinate entry of the upstream insights payload. -/
structure Coord where
  latitude : Int
  longitude : Int
deriving DecidableEq

/-- One `knownFor` entry of the upstream insights payload; the handler
keeps only its `content` field. -/
structure KnownForFact where
  content : String
deriving DecidableEq

/-- The JSON body of a successful upstream insights response.
`coordinates` is `Option` so that an absent field (JS `undefined`) is
representable: `cityData.coordinates[0]` then throws, as does
`coord.latitude` when the list is empty. -/
structure CityData where
  coordinates : Option (List Coord)
  population : Int
  knownFor : List KnownForFact
deriving DecidableEq

/-- One prediction of the upstream weather payload; either temperature
field may be absent (`?? 0` defaults it). -/
structure Prediction where
  minTemperature : Option Int
  maxTemperature : Option Int
deriving DecidableEq

/-- One element of the upstream weather payload array;
`weatherData[0]?.predictions || []` defaults an absent `predictions`
field to the empty list. -/
structure WeatherItem where
  predictions : Option (List Prediction)
deriving DecidableEq

/-- One entry of the `weatherPredictions` array built by the info
handler. -/
structure WeatherPrediction where
  whenLabel : String
  min : Int
  max : Int
deriving DecidableEq

/-- The 200 body of the info endpoint. -/
structure InfoBody where
  coordinates : Int × Int
  population : Int
  knownFor : List String
  weatherPredictions : List WeatherPrediction
  recipes : List Recipe
deriving DecidableEq

/-- An HTTP response of one of the three handlers: status code plus the
JSON body actually sent (`{error: ...}` bodies carry their message). -/
inductive Response where
  | ok200 (body : InfoBody)
  | created201 (body : Recipe)
  | noContent204
  | badRequest400 (error : String)
  | notFound404 (error : String)
  | internalError500 (error : String)
deriving DecidableEq

/-- A JSON value that can arrive as `request.body.content`.  (Non-finite
numbers and nested objects/arrays are not needed by any claim; all the
values here are truthy or falsy exactly as their JS counterparts.) -/
inductive JsValue where
  | undef
  | nullv
  | boolean (b : Bool)
  | number (n : Int)
  | str (s : String)
deriving DecidableEq

/-- JS truthiness of a `JsValue` (`!content` tests falsiness):
`undefined`, `null`, `false`, `0` and `""` are falsy. -/
def truthy : JsValue → Bool
  | .undef => false
  | .nullv => false
  | .boolean b => b
  | .number n => n != 0
  | .str s => s != ""

/-- `typeof content === 'string'`. -/
def isStr : JsValue → Bool
  | .str _ => true
  | _ => false

/-- The underlying string of a string `JsValue` (only used after the
handler's presence/type guard has established `typeof === 'string'`). -/
def strVal : JsValue → String
  | .str s => s
  | _ => ""

/-- Decimal digit value, for `parseInt`. -/
def digitVal (c : Char) : Option Nat :=
  if '0' ≤ c ∧ c ≤ '9' then some (c.toNat - '0'.toNat) else none

/-- Hexadecimal digit value, for `parseInt` after a `0x` prefix. -/
def hexDigitVal (c : Char) : Option Nat :=
  if '0' ≤ c ∧ c ≤ '9' then some (c.toNat - '0'.toNat)
  else if 'a' ≤ c ∧ c ≤ 'f' then some (c.toNat - 'a'.toNat + 10)
  else if 'A' ≤ c ∧ c ≤ 'F' then some (c.toNat - 'A'.toNat + 10)
  else none

/-- The longest prefix of digit values (`parseInt` stops at the first
character that is not a digit of the radix). -/
def takeDigits (dv : Char → Option Nat) : List Char → List Nat
  | [] => []
  | c :: cs =>
    match dv c with
    | none => []
    | some d => d :: takeDigits dv cs

/-- JS `parseInt(s)` with no radix argument: skip leading whitespace,
read an optional sign, use radix 16 after a `0x`/`0X` prefix and radix 10
otherwise, and parse the longest digit prefix; `none` models `NaN` (no
digits at all).  `NaN === anything` is false, so the delete handler's
`findIndex` predicate never matches on `none`. -/
def jsParseInt (s : String) : Option Int :=
  let cs := s.data.dropWhile fun c => c == ' ' || c == '\t' || c == '\n' || c == '\r'
  let signAndRest : Int × List Char :=
    match cs with
    | '-' :: rest => (-1, rest)
    | '+' :: rest => (1, rest)
    | _ => (1, cs)
  let baseAndRest : Nat × List Char :=
    match signAndRest.2 with
    | '0' :: 'x' :: rest => (16, rest)
    | '0' :: 'X' :: rest => (16, rest)
    | _ => (10, signAndRest.2)
  let ds := takeDigits (if baseAndRest.1 = 16 then hexDigitVal else digitVal)
    baseAndRest.2
  if ds.isEmpty then none
  else some (signAndRest.1 * (ds.foldl (fun acc d => acc * baseAndRest.1 + d) 0 : Nat))

/-- The `GET /cities/:cityId/infos` handler.  `cityRes` is the upstream
insights response (`none` for `!cityRes.ok`), `weatherData` the JSON
payload of the weather call.  A failing dereference of
`cityData.coordinates[0].latitude` lands in the handler's catch block,
which sends 500. -/
def getInfos (cityId : String) (cityRes : Option CityData)
    (weatherData : List WeatherItem) (st : Store) : Response × Store :=
  match cityRes with
  | none => (.notFound404 "City not found", st)
  | some cityData =>
    match cityData.coordinates.bind List.head? with
    | none => (.internalError500 "Internal Server Error", st)
    | some coord =>
      let coordinates := (coord.latitude, coord.longitude)
      let population := cityData.population
      let knownFor := cityData.knownFor.map KnownForFact.content
      let predictions := (weatherData.head?.bind WeatherItem.predictions).getD []
      let weatherPredictions : List WeatherPrediction :=
        [⟨"today",
          ((predictions.get? 0).bind Prediction.minTemperature).getD 0,
          ((predictions.get? 0).bind Prediction.maxTemperature).getD 0⟩,
         ⟨"tomorrow",
          ((predictions.get? 1).bind Prediction.minTemperature).getD 0,
          ((predictions.get? 1).bind Prediction.maxTemperature).getD 0⟩]
      let recipes := (lookupCity st.recipesByCity cityId).getD []
      (.ok200 ⟨coordinates, population, knownFor, weatherPredictions, recipes⟩, st)

/-- The `POST /cities/:cityId/recipes` handler.  `cityOk` is
`cityRes.ok` of the upstream existence check; `content` is
`request.body.content`. -/
def createRecipe (cityId : String) (cityOk : Bool) (content : JsValue)
    (st : Store) : Response × Store :=
  if cityOk = false then (.notFound404 "City not found", st)
  else if (truthy content && isStr content) = false then
    (.badRequest400 "Content is required", st)
  else
    let s := strVal content
    if s.length < 10 then
      (.badRequest400 "Content too short (min 10 characters)", st)
    else if s.length > 2000 then
      (.badRequest400 "Content too long (max 2000 characters)", st)
    else
      let newRecipe : Recipe := ⟨st.nextRecipeId, s⟩
      (.created201 newRecipe,
       ⟨pushRecipe st.recipesByCity cityId newRecipe, st.nextRecipeId + 1⟩)

/-- `Array.prototype.findIndex`: the index of the first element
satisfying the predicate; `none` models the JS return value `-1`. -/
def findIndex {α : Type} (p : α → Bool) : List α → Option Nat
  | [] => none
  | a :: rest => if p a then some 0 else (findIndex p rest).map (· + 1)

/-- The delete handler's predicate `r => r.id === parseInt(recipeId)`:
strict equality against the parsed id, always false when `parseInt`
produced `NaN`. -/
def matchesId (recipeId : String) (r : Recipe) : Bool :=
  (jsParseInt recipeId).any fun n => ((r.id : Int) == n)

/-- The `DELETE /cities/:cityId/recipes/:recipeId` handler.
`recipes.findIndex(...)` returning `-1` is `Option.none` here;
`recipes.splice(index, 1)` is `List.eraseIdx` on the stored array. -/
def deleteRecipe (cityId recipeId : String) (cityOk : Bool) (st : Store) :
    Response × Store :=
  if cityOk = false then (.notFound404 "City not found", st)
  else
    match lookupCity st.recipesByCity cityId with
    | none => (.notFound404 "No recipes for this city", st)
    | some recipes =>
      match findIndex (matchesId recipeId) recipes with
      | none => (.notFound404 "Recipe not found", st)
      | some i =>
        (.noContent204,
         ⟨setCity st.recipesByCity cityId (recipes.eraseIdx i), st.nextRecipeId⟩)

/-- One incoming request together with the upstream responses observed
while serving it. -/
inductive Op where
  | info (cityId : String) (cityRes : Option CityData) (weatherData : List WeatherItem)
  | create (cityId : String) (cityOk : Bool) (content : JsValue)
  | del (cityId : String) (recipeId : String) (cityOk : Bool)
deriving DecidableEq

/-- Serve one request against the store. -/
def step (st : Store) : Op → Response × Store
  | .info cid res w => getInfos cid res w st
  | .create cid ok c => createRecipe cid ok c st
  | .del cid rid ok => deleteRecipe cid rid ok st

/-- Serve a sequence of requests (the event loop runs each handler's
store mutation synchronously, so a trace is a fold). -/
def run (st : Store) : List Op → Store
  | [] => st
  | op :: ops => run (step st op).2 ops

/-- The ids returned by the successful creates of a trace, in request
order. -/
def issuedIds (st : Store) : List Op → List Nat
  | [] => []
  | op :: ops =>
    match step st op with
    | (.created201 r, st') => r.id :: issuedIds st' ops
    | (_, st') => issuedIds st' ops

/-- All recipe ids stored anywhere in the map, in storage order. -/
def allIds (m : List (String × List Recipe)) : List Nat :=
  match m with
  | [] => []
  | (_, v) :: rest => v.map Recipe.id ++ allIds rest

/-- The store invariant of the spec: stored ids are globally distinct,
and all are strictly below the counter. -/
def StoreInv (st : Store) : Prop :=
  (allIds st.recipesByCity).Nodup ∧
    ∀ i ∈ allIds st.recipesByCity, i < st.nextRecipeId

example : jsParseInt "42" = some 42 := by decide
example : jsParseInt "  -17abc" = some (-17) := by decide
example : jsParseInt "0x1A" = some 26 := by decide
example : jsParseInt "abc" = none := by decide
example : jsParseInt "" = none := by decide
example :
    (createRecipe "42" true (.str "Bring flour and sugar") initialStore).1 =
      .created201 ⟨1, "Bring flour and sugar"⟩ := by decide

/-! ### Helper lemmas -/

/-- The info handler leaves the store untouched on every path. -/
theorem getInfos_store (cid : String) (cityRes : Option CityData)
    (w : List WeatherItem) (st : Store) : (getInfos cid cityRes w st).2 = st := by
  unfold getInfos
  split
  · rfl
  · split <;> rfl

/-- After rebinding a present key, looking it up yields the new value. -/
theorem lookupCity_setCity_self (m : List (String × List Recipe))
    (cid : String) (v w : List Recipe) (h : lookupCity m cid = some w) :
    lookupCity (setCity m cid v) cid = some v := by
  induction m with
  | nil => simp [lookupCity] at h
  | cons p rest ih =>
    obtain ⟨k, u⟩ := p
    by_cases hk : k = cid
    · subst hk
      simp [lookupCity, setCity]
    · simp only [lookupCity, setCity, if_neg hk] at h ⊢
      exact ih h

/-- `findIndex` misses when the predicate holds nowhere. -/
theorem findIndex_eq_none (p : α → Bool) (l : List α)
    (h : ∀ a ∈ l, p a = false) : findIndex p l = none := by
  induction l with
  | nil => rfl
  | cons a rest ih =>
    have ha : p a = false := h a (List.mem_cons_self a rest)
    simp [findIndex, ha, ih fun b hb => h b (List.mem_cons_of_mem a hb)]

/-- The element found by `findIndex` sits at the returned index and
satisfies the predicate. -/
theorem findIndex_some (p : α → Bool) (l : List α) (i : Nat)
    (h : findIndex p l = some i) : ∃ a, l.get? i = some a ∧ p a = true := by
  induction l generalizing i with
  | nil => simp [findIndex] at h
  | cons a rest ih =>
    by_cases ha : p a = true
    · simp [findIndex, ha] at h
      exact ⟨a, by simp [← h], ha⟩
    · simp [findIndex, ha] at h
      obtain ⟨j, hj, hji⟩ := h
      obtain ⟨b, hb, hpb⟩ := ih j hj
      exact ⟨b, by simpa [← hji] using hb, hpb⟩

/-- In a list whose ids are distinct, every element outside the
distinguished middle entry has a different id. -/
theorem nodup_middle_ne (f : Recipe → Nat) (xs ys : List Recipe) (a : Recipe)
    (h : ((xs ++ a :: ys).map f).Nodup) : ∀ b ∈ xs ++ ys, f b ≠ f a := by
  intro b hb hba
  rw [List.map_append, List.map_cons] at h
  have h2 : (f a :: (xs.map f ++ ys.map f)).Nodup := List.perm_middle.nodup h
  rw [List.nodup_cons] at h2
  apply h2.1
  rw [← List.map_append]
  exact hba ▸ List.mem_map_of_mem f hb

/-- Removing the entry at index `i` from a list with globally distinct
ids leaves no element sharing the removed entry's id. -/
theorem eraseIdx_id_ne (l : List Recipe) (i : Nat) (a : Recipe)
    (hnd : (l.map Recipe.id).Nodup) (ha : l.get? i = some a) :
    ∀ b ∈ l.eraseIdx i, b.id ≠ a.id := by
  have hi : i < l.length := by
    rcases Nat.lt_or_ge i l.length with h | h
    · exact h
    · rw [List.get?_eq_none.mpr h] at ha; cases ha
  have ha' : l[i] = a := by
    rw [List.get?_eq_getElem?, List.getElem?_eq_getElem hi] at ha
    exact Option.some.inj ha
  have hdecomp : l = l.take i ++ a :: l.drop (i + 1) := by
    conv_lhs => rw [← List.take_append_drop i l]
    rw [List.drop_eq_getElem_cons hi, ha']
  intro b hb
  have hb' : b ∈ l.take i ++ l.drop (i + 1) := by
    rwa [List.eraseIdx_eq_take_drop_succ] at hb
  exact nodup_middle_ne Recipe.id (l.take i) (l.drop (i + 1)) a
    (by rw [← hdecomp]; exact hnd) b hb'

/-- When the info handler answers 200, the `recipes` field of the body
is exactly the stored list for the city (empty if absent). -/
theorem getInfos_ok_recipes (cid : String) (d : CityData)
    (w : List WeatherItem) (st : Store) (body : InfoBody) (st' : Store)
    (h : getInfos cid (some d) w st = (.ok200 body, st')) :
    body.recipes = (lookupCity st.recipesByCity cid).getD [] := by
  unfold getInfos at h
  split at h
  · exact absurd h (by simp)
  · split at h
    · exact absurd h (by simp)
    · simp only [Prod.mk.injEq, Response.ok200.injEq] at h
      rw [← h.1]

/-- Claim C5: on an upstream non-success city lookup, each of the three
handlers returns 404 with `{error: "City not found"}` and leaves the
store unchanged. -/
theorem C5_unknown_city_404 :
    (∀ cid w st, getInfos cid none w st = (.notFound404 "City not found", st)) ∧
    (∀ cid c st, createRecipe cid false c st = (.notFound404 "City not found", st)) ∧
    (∀ cid rid st, deleteRecipe cid rid false st = (.notFound404 "City not found", st)) :=
  ⟨fun _ _ _ => rfl, fun _ _ _ => rfl, fun _ _ _ => rfl⟩

/-- Claim C7: the info handler has no side effects — for every request,
whatever the outcome (200, 404 or 500), the store after the request is
the store before it. -/
theorem C7_info_pure :
    ∀ cid cityRes w st, (getInfos cid cityRes w st).2 = st :=
  getInfos_store

/-- Claim C10: on an existing city, any falsy or non-string `content`
(in particular the empty string) is rejected by the presence/type check
with 400 `{error: "Content is required"}`, before the length checks
run. -/
theorem C10_falsy_or_nonstring_content :
    ∀ cid st v, truthy v = false ∨ isStr v = false →
      createRecipe cid true v st = (.badRequest400 "Content is required", st) := by
  intro cid st v hv
  rcases hv with h | h <;> simp [createRecipe, h]

/-- Claim C10 witness: the empty string is reported as missing content. -/
theorem C10_falsy_or_nonstring_content_witness :
    createRecipe "42" true (.str "") initialStore =
      (.badRequest400 "Content is required", initialStore) :=
  C10_falsy_or_nonstring_content "42" initialStore (.str "") (Or.inl (by decide))

/-- Claim C3: on an existing city the content checks run in order —
presence/type first, then minimum length 10, then maximum length 2000,
the first failing check determining the error — and length exactly 10
and exactly 2000 both succeed with 201. -/
theorem C3_validation_order :
    ∀ cid st,
      (∀ v, truthy v = false ∨ isStr v = false →
        createRecipe cid true v st = (.badRequest400 "Content is required", st)) ∧
      (∀ s : String, s ≠ "" → s.length < 10 →
        createRecipe cid true (.str s) st =
          (.badRequest400 "Content too short (min 10 characters)", st)) ∧
      (∀ s : String, s.length > 2000 →
        createRecipe cid true (.str s) st =
          (.badRequest400 "Content too long (max 2000 characters)", st)) ∧
      (∀ s : String, 10 ≤ s.length → s.length ≤ 2000 →
        createRecipe cid true (.str s) st =
          (.created201 ⟨st.nextRecipeId, s⟩,
           ⟨pushRecipe st.recipesByCity cid ⟨st.nextRecipeId, s⟩,
            st.nextRecipeId + 1⟩)) := by
  intro cid st
  refine ⟨?_, ?_, ?_, ?_⟩
  · intro v hv
    rcases hv with h | h <;> simp [createRecipe, h]
  · intro s hne hlen
    have ht : truthy (.str s) = true := by simp [truthy, hne]
    simp [createRecipe, ht, isStr, strVal, hlen]
  · intro s hlen
    have hne : s ≠ "" := by
      intro h; subst h; simp at hlen
    have ht : truthy (.str s) = true := by simp [truthy, hne]
    have h10 : ¬ s.length < 10 := by omega
    simp [createRecipe, ht, isStr, strVal, h10, hlen]
  · intro s h10 h2000
    have hne : s ≠ "" := by
      intro h; subst h; simp at h10
    have ht : truthy (.str s) = true := by simp [truthy, hne]
    have h10' : ¬ s.length < 10 := by omega
    have h2000' : ¬ s.length > 2000 := by omega
    simp [createRecipe, ht, isStr, strVal, h10', h2000']

/-- Claim C3 witness: a 9-character content is rejected as too short. -/
theorem C3_validation_order_witness :
    createRecipe "42" true (.str "shortone!") initialStore =
      (.badRequest400 "Content too short (min 10 characters)", initialStore) :=
  (C3_validation_order "42" initialStore).2.1 "shortone!" (by decide) (by decide)

/-- Claim C8: when the upstream city lookup succeeds but the insight
payload's coordinates list is absent or empty, the dereference of the
first coordinate fails and the catch-all produces 500
`{error: "Internal Server Error"}`. -/
theorem C8_missing_coordinates_500 :
    ∀ cid d w st, d.coordinates = none ∨ d.coordinates = some [] →
      getInfos cid (some d) w st = (.internalError500 "Internal Server Error", st) := by
  intro cid d w st h
  rcases h with h | h <;> simp [getInfos, h]

/-- Claim C8 witness: an insight payload with an empty coordinates list
yields the 500 response. -/
theorem C8_missing_coordinates_500_witness :
    getInfos "42" (some ⟨some [], 7, []⟩) [] initialStore =
      (.internalError500 "Internal Server Error", initialStore) :=
  C8_missing_coordinates_500 "42" ⟨some [], 7, []⟩ [] initialStore (Or.inr rfl)

/-- Claim C2: whenever the info handler answers 200, the
`weatherPredictions` array has exactly the two entries `"today"` then
`"tomorrow"`, whose min/max come from the first and second upstream
prediction with absent predictions or fields defaulting to 0; and with
an empty upstream weather payload the request still succeeds, with both
entries zeroed. -/
theorem C2_weather_two_entries :
    (∀ cid d w st body st',
      getInfos cid (some d) w st = (.ok200 body, st') →
      body.weatherPredictions =
        (let predictions := (w.head?.bind WeatherItem.predictions).getD []
         [⟨"today",
           ((predictions.get? 0).bind Prediction.minTemperature).getD 0,
           ((predictions.get? 0).bind Prediction.maxTemperature).getD 0⟩,
          ⟨"tomorrow",
           ((predictions.get? 1).bind Prediction.minTemperature).getD 0,
           ((predictions.get? 1).bind Prediction.maxTemperature).getD 0⟩])) ∧
    (∀ cid c rest pop kf st,
      getInfos cid (some ⟨some (c :: rest), pop, kf⟩) [] st =
        (.ok200 ⟨(c.latitude, c.longitude), pop, kf.map KnownForFact.content,
                 [⟨"today", 0, 0⟩, ⟨"tomorrow", 0, 0⟩],
                 (lookupCity st.recipesByCity cid).getD []⟩, st)) := by
  constructor
  · intro cid d w st body st' h
    unfold getInfos at h
    split at h
    · exact absurd h (by simp)
    · split at h
      · exact absurd h (by simp)
      · simp only [Prod.mk.injEq, Response.ok200.injEq] at h
        rw [← h.1]
  · intro cid c rest pop kf st
    rfl

/-- Claim C2 witness: a concrete success with empty weather carries the
two zero-default entries. -/
theorem C2_weather_two_entries_witness :
    (⟨(3, 4), 7, [], [⟨"today", 0, 0⟩, ⟨"tomorrow", 0, 0⟩], []⟩ : InfoBody).weatherPredictions =
      [⟨"today", 0, 0⟩, ⟨"tomorrow", 0, 0⟩] :=
  C2_weather_two_entries.1 "42" ⟨some [⟨3, 4⟩], 7, []⟩ [] initialStore
    ⟨(3, 4), 7, [], [⟨"today", 0, 0⟩, ⟨"tomorrow", 0, 0⟩], []⟩ initialStore rfl

/-- Claim C9: the delete endpoint distinguishes an absent recipe list
(`"No recipes for this city"`) from a present-but-empty one
(`"Recipe not found"`); a successful delete rebinds the city's key and
never removes it, so deleting a city's only recipe and then deleting
again yields 404 `"Recipe not found"`. -/
theorem C9_absent_vs_empty_list :
    (∀ cid rid st, lookupCity st.recipesByCity cid = none →
      deleteRecipe cid rid true st = (.notFound404 "No recipes for this city", st)) ∧
    (∀ cid rid st, lookupCity st.recipesByCity cid = some [] →
      deleteRecipe cid rid true st = (.notFound404 "Recipe not found", st)) ∧
    (∀ cid rid st out, deleteRecipe cid rid true st = (Response.noContent204, out) →
      ∃ l, lookupCity out.recipesByCity cid = some l) ∧
    (∀ cid rid st r, matchesId rid r = true →
      lookupCity st.recipesByCity cid = some [r] →
      (deleteRecipe cid rid true st).1 = Response.noContent204 ∧
      deleteRecipe cid rid true (deleteRecipe cid rid true st).2 =
        (.notFound404 "Recipe not found", (deleteRecipe cid rid true st).2)) := by
  refine ⟨?_, ?_, ?_, ?_⟩
  · intro cid rid st h
    simp [deleteRecipe, h]
  · intro cid rid st h
    simp [deleteRecipe, h, findIndex]
  · intro cid rid st out h
    cases hl : lookupCity st.recipesByCity cid with
    | none => simp [deleteRecipe, hl] at h
    | some recipes =>
      cases hi : findIndex (matchesId rid) recipes with
      | none => simp [deleteRecipe, hl, hi] at h
      | some i =>
        have hd : deleteRecipe cid rid true st =
            (.noContent204,
             ⟨setCity st.recipesByCity cid (recipes.eraseIdx i),
              st.nextRecipeId⟩) := by
          simp [deleteRecipe, hl, hi]
        rw [hd] at h
        simp only [Prod.mk.injEq, true_and] at h
        refine ⟨recipes.eraseIdx i, ?_⟩
        rw [← h]
        exact lookupCity_setCity_self _ _ _ _ hl
  · intro cid rid st r hm hl
    have hstep : deleteRecipe cid rid true st =
        (.noContent204, ⟨setCity st.recipesByCity cid [], st.nextRecipeId⟩) := by
      simp [deleteRecipe, hl, findIndex, hm, List.eraseIdx]
    refine ⟨by rw [hstep], ?_⟩
    rw [hstep]
    have hl' : lookupCity (setCity st.recipesByCity cid []) cid = some [] :=
      lookupCity_setCity_self _ _ _ _ hl
    simp [deleteRecipe, hl', findIndex]

/-- Claim C9 witness: a store whose city `"42"` holds exactly one
recipe — deleting it succeeds and the repeat delete reports
`"Recipe not found"`. -/
theorem C9_absent_vs_empty_list_witness :
    (deleteRecipe "42" "1" true ⟨[("42", [⟨1, "0123456789"⟩])], 2⟩).1 =
        Response.noContent204 ∧
      deleteRecipe "42" "1" true
          (deleteRecipe "42" "1" true ⟨[("42", [⟨1, "0123456789"⟩])], 2⟩).2 =
        (.notFound404 "Recipe not found",
         (deleteRecipe "42" "1" true ⟨[("42", [⟨1, "0123456789"⟩])], 2⟩).2) :=
  C9_absent_vs_empty_list.2.2.2 "42" "1" ⟨[("42", [⟨1, "0123456789"⟩])], 2⟩
    ⟨1, "0123456789"⟩ (by decide) (by decide)

/-- Claim C4: deleting an existing recipe of an existing city removes
exactly the one entry at the found index (order of the rest preserved)
and answers 204; afterwards the info endpoint no longer lists that id,
and a repeat delete of the same id answers 404 `"Recipe not found"`.
(The distinct-ids hypothesis holds in every reachable store.) -/
theorem C4_delete_removes_exactly_one :
    ∀ cid rid st n recipes i,
      jsParseInt rid = some n →
      lookupCity st.recipesByCity cid = some recipes →
      findIndex (matchesId rid) recipes = some i →
      (recipes.map Recipe.id).Nodup →
      (deleteRecipe cid rid true st).1 = Response.noContent204 ∧
      lookupCity (deleteRecipe cid rid true st).2.recipesByCity cid =
        some (recipes.take i ++ recipes.drop (i + 1)) ∧
      (∃ r, recipes.get? i = some r ∧ (r.id : Int) = n) ∧
      (∀ d w body st₂,
        getInfos cid (some d) w (deleteRecipe cid rid true st).2 =
          (.ok200 body, st₂) →
        ∀ r ∈ body.recipes, (r.id : Int) ≠ n) ∧
      deleteRecipe cid rid true (deleteRecipe cid rid true st).2 =
        (.notFound404 "Recipe not found", (deleteRecipe cid rid true st).2) := by
  intro cid rid st n recipes i hn hl hi hnd
  have hd : deleteRecipe cid rid true st =
      (.noContent204,
       ⟨setCity st.recipesByCity cid (recipes.eraseIdx i),
        st.nextRecipeId⟩) := by
    simp [deleteRecipe, hl, hi]
  obtain ⟨a, hga, hpa⟩ := findIndex_some _ _ _ hi
  have hane : (a.id : Int) = n := by
    simpa [matchesId, hn] using hpa
  have hlook : lookupCity
      (setCity st.recipesByCity cid (recipes.eraseIdx i)) cid =
      some (recipes.eraseIdx i) :=
    lookupCity_setCity_self _ _ _ _ hl
  have hidne : ∀ b ∈ recipes.eraseIdx i, (b.id : Int) ≠ n := by
    intro b hb
    have hne := eraseIdx_id_ne recipes i a hnd hga b hb
    omega
  have hnomatch : ∀ b ∈ recipes.eraseIdx i, matchesId rid b = false := by
    intro b hb
    simpa [matchesId, hn] using hidne b hb
  have hfind2 : findIndex (matchesId rid) (recipes.eraseIdx i) = none :=
    findIndex_eq_none _ _ hnomatch
  refine ⟨by rw [hd], ?_, ⟨a, hga, hane⟩, ?_, ?_⟩
  · rw [hd, ← List.eraseIdx_eq_take_drop_succ]
    exact hlook
  · intro d w body st₂ hinfo
    rw [hd] at hinfo
    have hrec : body.recipes =
        (lookupCity (setCity st.recipesByCity cid (recipes.eraseIdx i))
          cid).getD [] :=
      getInfos_ok_recipes _ _ _ _ _ _ hinfo
    rw [hlook] at hrec
    intro r hr
    rw [hrec] at hr
    exact hidne r (by simpa using hr)
  · rw [hd]
    simp [deleteRecipe, hlook, hfind2]

/-- Claim C4 witness: a city with two recipes — deleting id 1 keeps id
2, and a repeat delete reports `"Recipe not found"`. -/
theorem C4_delete_removes_exactly_one_witness :
    (deleteRecipe "42" "1" true
        ⟨[("42", [⟨1, "first text!"⟩, ⟨2, "second text"⟩])], 3⟩).1 =
      Response.noContent204 ∧
    lookupCity (deleteRecipe "42" "1" true
        ⟨[("42", [⟨1, "first text!"⟩, ⟨2, "second text"⟩])], 3⟩).2.recipesByCity
        "42" =
      some ([⟨1, "first text!"⟩, ⟨2, "second text"⟩].take 0 ++
            [⟨1, "first text!"⟩, ⟨2, "second text"⟩].drop 1) ∧
    (∃ r, [(⟨1, "first text!"⟩ : Recipe), ⟨2, "second text"⟩].get? 0 = some r ∧
      (r.id : Int) = 1) ∧
    (∀ d w body st₂,
      getInfos "42" (some d) w (deleteRecipe "42" "1" true
          ⟨[("42", [⟨1, "first text!"⟩, ⟨2, "second text"⟩])], 3⟩).2 =
        (.ok200 body, st₂) →
      ∀ r ∈ body.recipes, (r.id : Int) ≠ 1) ∧
    deleteRecipe "42" "1" true (deleteRecipe "42" "1" true
        ⟨[("42", [⟨1, "first text!"⟩, ⟨2, "second text"⟩])], 3⟩).2 =
      (.notFound404 "Recipe not found",
       (deleteRecipe "42" "1" true
          ⟨[("42", [⟨1, "first text!"⟩, ⟨2, "second text"⟩])], 3⟩).2) :=
  C4_delete_removes_exactly_one "42" "1"
    ⟨[("42", [⟨1, "first text!"⟩, ⟨2, "second text"⟩])], 3⟩ 1
    [⟨1, "first text!"⟩, ⟨2, "second text"⟩] 0
    (by decide) (by decide) (by decide) (by decide)


/-- Case analysis of the create handler: either it created a recipe
carrying the pre-increment counter value and bumped the counter, or it
failed, left the store alone and did not answer 201. -/
theorem createRecipe_spec (cid : String) (ok : Bool) (c : JsValue)
    (st : Store) :
    (∃ r, createRecipe cid ok c st =
        (.created201 r,
         ⟨pushRecipe st.recipesByCity cid r, st.nextRecipeId + 1⟩) ∧
      r.id = st.nextRecipeId) ∨
    ((createRecipe cid ok c st).2 = st ∧
      ∀ r st', createRecipe cid ok c st ≠ (.created201 r, st')) := by
  cases ok with
  | false => exact Or.inr ⟨by simp [createRecipe], by simp [createRecipe]⟩
  | true =>
    by_cases hts : (truthy c && isStr c) = false
    · exact Or.inr ⟨by simp [createRecipe, hts], by simp [createRecipe, hts]⟩
    · by_cases h10 : (strVal c).length < 10
      · exact Or.inr ⟨by simp [createRecipe, hts, h10],
          by simp [createRecipe, hts, h10]⟩
      · by_cases h2000 : (strVal c).length > 2000
        · exact Or.inr ⟨by simp [createRecipe, hts, h10, h2000],
            by simp [createRecipe, hts, h10, h2000]⟩
        · exact Or.inl ⟨⟨st.nextRecipeId, strVal c⟩,
            by simp [createRecipe, hts, h10, h2000], rfl⟩

/-- The delete handler never changes the counter. -/
theorem deleteRecipe_counter (cid rid : String) (ok : Bool) (st : Store) :
    (deleteRecipe cid rid ok st).2.nextRecipeId = st.nextRecipeId := by
  unfold deleteRecipe
  split
  · rfl
  · split
    · rfl
    · split <;> rfl

/-- The delete handler either leaves the store alone or replaces one
city's list by that list with one index erased. -/
theorem deleteRecipe_store (cid rid : String) (ok : Bool) (st : Store) :
    (deleteRecipe cid rid ok st).2 = st ∨
    ∃ recipes i, lookupCity st.recipesByCity cid = some recipes ∧
      (deleteRecipe cid rid ok st).2 =
        ⟨setCity st.recipesByCity cid (recipes.eraseIdx i),
         st.nextRecipeId⟩ := by
  cases ok with
  | false => exact Or.inl (by simp [deleteRecipe])
  | true =>
    cases hl : lookupCity st.recipesByCity cid with
    | none => exact Or.inl (by simp [deleteRecipe, hl])
    | some recipes =>
      cases hi : findIndex (matchesId rid) recipes with
      | none => exact Or.inl (by simp [deleteRecipe, hl, hi])
      | some i =>
        exact Or.inr ⟨recipes, i, rfl, by simp [deleteRecipe, hl, hi]⟩

/-- The info handler never answers 201. -/
theorem getInfos_not_created (cid : String) (res : Option CityData)
    (w : List WeatherItem) (st : Store) :
    ∀ r st', getInfos cid res w st ≠ (.created201 r, st') := by
  unfold getInfos
  split
  · simp
  · split <;> simp

/-- The delete handler never answers 201. -/
theorem deleteRecipe_not_created (cid rid : String) (ok : Bool) (st : Store) :
    ∀ r st', deleteRecipe cid rid ok st ≠ (.created201 r, st') := by
  unfold deleteRecipe
  split
  · simp
  · split
    · simp
    · split <;> simp

/-- Case analysis of one served request: either it was a successful
create — the returned id is the old counter and the counter advanced by
one — or it did not answer 201 and the counter is unchanged. -/
theorem step_spec (st : Store) (op : Op) :
    (∃ r st', step st op = (.created201 r, st') ∧
      r.id = st.nextRecipeId ∧ st'.nextRecipeId = st.nextRecipeId + 1) ∨
    ((step st op).2.nextRecipeId = st.nextRecipeId ∧
      ∀ r st', step st op ≠ (.created201 r, st')) := by
  cases op with
  | info cid res w =>
    refine Or.inr ⟨?_, getInfos_not_created cid res w st⟩
    show (getInfos cid res w st).2.nextRecipeId = st.nextRecipeId
    rw [getInfos_store]
  | create cid ok c =>
    rcases createRecipe_spec cid ok c st with ⟨r, heq, hid⟩ | ⟨h2, hnot⟩
    · exact Or.inl ⟨r, _, heq, hid, rfl⟩
    · refine Or.inr ⟨?_, hnot⟩
      show (createRecipe cid ok c st).2.nextRecipeId = st.nextRecipeId
      rw [h2]
  | del cid rid ok =>
    exact Or.inr ⟨deleteRecipe_counter cid rid ok st,
      deleteRecipe_not_created cid rid ok st⟩

/-- Unfolding `issuedIds` over a successful create. -/
theorem issuedIds_cons_created (st : Store) (op : Op) (ops : List Op)
    (r : Recipe) (st' : Store) (hp : step st op = (.created201 r, st')) :
    issuedIds st (op :: ops) = r.id :: issuedIds st' ops := by
  simp [issuedIds, hp]

/-- Unfolding `issuedIds` over a request that did not answer 201. -/
theorem issuedIds_cons_other (st : Store) (op : Op) (ops : List Op)
    (hnot : ∀ r st', step st op ≠ (.created201 r, st')) :
    issuedIds st (op :: ops) = issuedIds (step st op).2 ops := by
  rcases hq : step st op with ⟨resp, st'⟩
  cases resp with
  | created201 r => exact absurd hq (hnot r st')
  | ok200 b => simp [issuedIds, hq]
  | noContent204 => simp [issuedIds, hq]
  | badRequest400 e => simp [issuedIds, hq]
  | notFound404 e => simp [issuedIds, hq]
  | internalError500 e => simp [issuedIds, hq]

/-- Every id issued along a trace is at least the starting counter. -/
theorem issuedIds_lower_bound (ops : List Op) :
    ∀ st, ∀ x ∈ issuedIds st ops, st.nextRecipeId ≤ x := by
  induction ops with
  | nil => intro st x hx; simp [issuedIds] at hx
  | cons op ops ih =>
    intro st x hx
    rcases step_spec st op with ⟨r, st', heq, hid, hc⟩ | ⟨hc, hnot⟩
    · rw [issuedIds_cons_created st op ops r st' heq] at hx
      rcases List.mem_cons.mp hx with rfl | hx
      · omega
      · have := ih st' x hx
        omega
    · rw [issuedIds_cons_other st op ops hnot] at hx
      have := ih (step st op).2 x hx
      omega

/-- The ids issued along any trace are strictly increasing. -/
theorem issuedIds_pairwise (ops : List Op) :
    ∀ st, (issuedIds st ops).Pairwise (· < ·) := by
  induction ops with
  | nil => intro st; simp [issuedIds]
  | cons op ops ih =>
    intro st
    rcases step_spec st op with ⟨r, st', heq, hid, hc⟩ | ⟨hc, hnot⟩
    · rw [issuedIds_cons_created st op ops r st' heq]
      refine List.Pairwise.cons ?_ (ih st')
      intro y hy
      have := issuedIds_lower_bound ops st' y hy
      omega
    · rw [issuedIds_cons_other st op ops hnot]
      exact ih _

/-- Claim C1: a successful create returns the counter's value before
incrementing and advances the counter by one; the counter never
decreases under any request (so it is never reset or reused after
deletes); and along any trace of requests, every id returned by a
successful create is strictly greater than every previously issued
id. -/
theorem C1_post_increment_and_monotone_ids :
    (∀ cid ok c st r st',
      createRecipe cid ok c st = (.created201 r, st') →
      r.id = st.nextRecipeId ∧ st'.nextRecipeId = st.nextRecipeId + 1) ∧
    (∀ st op, st.nextRecipeId ≤ (step st op).2.nextRecipeId) ∧
    (∀ ops, (issuedIds initialStore ops).Pairwise (· < ·)) := by
  refine ⟨?_, ?_, fun ops => issuedIds_pairwise ops initialStore⟩
  · intro cid ok c st r st' h
    rcases createRecipe_spec cid ok c st with ⟨r0, heq, hid⟩ | ⟨h2, hnot⟩
    · rw [h] at heq
      obtain ⟨h1, hst⟩ := Prod.mk.inj heq
      obtain rfl : r = r0 := Response.created201.inj h1
      exact ⟨hid, by rw [hst]⟩
    · exact absurd h (hnot r st')
  · intro st op
    rcases step_spec st op with ⟨r, st', heq, hid, hc⟩ | ⟨hc, _⟩
    · rw [heq]
      show st.nextRecipeId ≤ st'.nextRecipeId
      omega
    · omega

/-- Claim C1 witness: the first create against the fresh store returns
id 1 (the counter's prior value) and leaves the counter at 2. -/
theorem C1_post_increment_and_monotone_ids_witness :
    (⟨1, "Bring flour and sugar"⟩ : Recipe).id = initialStore.nextRecipeId ∧
      (⟨[("42", [⟨1, "Bring flour and sugar"⟩])], 2⟩ : Store).nextRecipeId =
        initialStore.nextRecipeId + 1 :=
  C1_post_increment_and_monotone_ids.1 "42" true (.str "Bring flour and sugar")
    initialStore ⟨1, "Bring flour and sugar"⟩
    ⟨[("42", [⟨1, "Bring flour and sugar"⟩])], 2⟩ (by decide)

/-- Appending a recipe to a city's list contributes exactly its id to
the multiset of stored ids. -/
theorem allIds_pushRecipe (m : List (String × List Recipe)) (cid : String)
    (r : Recipe) :
    (allIds (pushRecipe m cid r)).Perm (r.id :: allIds m) := by
  induction m with
  | nil => simp [pushRecipe, allIds]
  | cons p rest ih =>
    obtain ⟨k, v⟩ := p
    by_cases hk : k = cid
    · subst hk
      simp only [pushRecipe, if_pos rfl, allIds, List.map_append]
      rw [List.append_assoc]
      exact List.perm_middle
    · simp only [pushRecipe, if_neg hk, allIds]
      exact (ih.append_left (v.map Recipe.id)).trans List.perm_middle

/-- Replacing a present city's list by a sublist of it shrinks the
multiset of stored ids. -/
theorem allIds_setCity_sublist (m : List (String × List Recipe))
    (cid : String) (v w : List Recipe) (hl : lookupCity m cid = some w)
    (hs : v.Sublist w) :
    (allIds (setCity m cid v)).Sublist (allIds m) := by
  induction m with
  | nil => simp [lookupCity] at hl
  | cons p rest ih =>
    obtain ⟨k, u⟩ := p
    by_cases hk : k = cid
    · subst hk
      have hl' : u = w := by simpa [lookupCity] using hl
      subst hl'
      simp only [setCity, if_pos rfl, allIds]
      exact (hs.map Recipe.id).append_right _
    · simp only [lookupCity, if_neg hk] at hl
      simp only [setCity, if_neg hk, allIds]
      exact (ih hl).append_left _

/-- One served request preserves the store invariant. -/
theorem storeInv_step (st : Store) (op : Op) (h : StoreInv st) :
    StoreInv (step st op).2 := by
  obtain ⟨hnd, hbound⟩ := h
  cases op with
  | info cid res w =>
    have hs : (step st (.info cid res w)).2 = st := getInfos_store cid res w st
    rw [hs]
    exact ⟨hnd, hbound⟩
  | create cid ok c =>
    rcases createRecipe_spec cid ok c st with ⟨r, heq, hid⟩ | ⟨h2, _⟩
    · have hstep : (step st (.create cid ok c)).2 =
          ⟨pushRecipe st.recipesByCity cid r, st.nextRecipeId + 1⟩ := by
        show (createRecipe cid ok c st).2 = _
        rw [heq]
      rw [hstep]
      have hperm := allIds_pushRecipe st.recipesByCity cid r
      refine ⟨hperm.symm.nodup ?_, ?_⟩
      · rw [List.nodup_cons]
        refine ⟨fun hmem => ?_, hnd⟩
        have := hbound _ hmem
        omega
      · intro x hx
        have hx' : x ∈ r.id :: allIds st.recipesByCity := hperm.subset hx
        show x < st.nextRecipeId + 1
        rcases List.mem_cons.mp hx' with rfl | hx'
        · omega
        · have := hbound x hx'
          omega
    · have hstep : (step st (.create cid ok c)).2 = st := h2
      rw [hstep]
      exact ⟨hnd, hbound⟩
  | del cid rid ok =>
    rcases deleteRecipe_store cid rid ok st with h2 | ⟨recipes, i, hl, h2⟩
    · have hstep : (step st (.del cid rid ok)).2 = st := h2
      rw [hstep]
      exact ⟨hnd, hbound⟩
    · have hstep : (step st (.del cid rid ok)).2 =
          ⟨setCity st.recipesByCity cid (recipes.eraseIdx i),
           st.nextRecipeId⟩ := h2
      rw [hstep]
      have hsub : (allIds (setCity st.recipesByCity cid
          (recipes.eraseIdx i))).Sublist (allIds st.recipesByCity) :=
        allIds_setCity_sublist _ _ _ _ hl (recipes.eraseIdx_sublist i)
      refine ⟨hnd.sublist hsub, ?_⟩
      intro x hx
      exact hbound x (hsub.subset hx)

/-- A whole trace preserves the store invariant. -/
theorem storeInv_run (ops : List Op) :
    ∀ st, StoreInv st → StoreInv (run st ops) := by
  induction ops with
  | nil => intro st h; exact h
  | cons op ops ih => intro st h; exact ih _ (storeInv_step st op h)

/-- Claim C6: in every state reachable from the initial empty store by
any sequence of requests, the stored recipe ids are globally distinct
(one counter for all cities) and every stored id is strictly below the
current counter. -/
theorem C6_global_id_uniqueness :
    ∀ ops, StoreInv (run initialStore ops) :=
  fun ops => storeInv_run ops initialStore
    ⟨List.nodup_nil, fun i h => by simp [allIds, initialStore] at h⟩
